import Mathlib

/-!
Verification of the excel-to-image matcher (`src/app.py`).

Shallow embedding conventions:
* Python strings are `List Char`; the pandas data frame is reduced to its
  `ClientID` column (the only column the algorithm reads or writes from a
  correctness standpoint), as a list of cell values already rendered as
  strings (`astype(str)`).
* A Python `dict` keyed by identifiers is a `PyDict`: its key set plus a
  valuation; a lookup of a key outside the key set is a `KeyError`, which
  the embedding surfaces through `Except PyErr`.
* The file system is an explicit input: a directory is `Option (List Entry)`
  (`none` = the path does not exist, mirroring `os.path.exists` = `False`),
  an entry carries its base name and whether `os.path.isfile` holds.
* `st.error`/`st.write` reporting and `shutil.copy` byte movement are side
  effects outside the data contracts; the control flow they decorate is
  embedded exactly.
-/

namespace App

/-- Identifiers and file names (Python strings) as lists of characters. -/
abbrev Ident : Type := List Char

/-- Python `str.zfill w`: left-pad with `'0'` to width `w`, keeping a leading
sign character in front of the padding; a string of length at least `w` is
returned unchanged.  Used at `app.py:47` (pandas `.str.zfill(11)`) and
`app.py:57` (`match.group(1).zfill(11)`). -/
def zfill (w : Nat) (s : List Char) : List Char :=
  if w ≤ s.length then s
  else
    match s with
    | [] => List.replicate w '0'
    | c :: rest =>
      if c = '+' ∨ c = '-' then c :: (List.replicate (w - (rest.length + 1)) '0' ++ rest)
      else List.replicate (w - (rest.length + 1)) '0' ++ (c :: rest)

/-- The portion of a file name before the first underscore, then its leading
run of decimal digits: `re.match(r'(\d+)', file_name.split('_')[0])` at
`app.py:55` (`split('_')[0]` is everything before the first `'_'`, the whole
name when there is none; the regex is anchored at the start and greedy). -/
def leadRun (name : List Char) : List Char :=
  (name.takeWhile fun c => c ≠ '_').takeWhile Char.isDigit

/-- `extract_number_from_filename` (`app.py:54-58`): the leading digit run of
the pre-underscore portion, zero-padded to width 11, or `none` (Python
`None`) when that portion does not start with a digit. -/
def extract_number_from_filename (name : List Char) : Option (List Char) :=
  let d := leadRun name
  if d = [] then none else some (zfill 11 d)

/-- A directory entry as the scan sees it: its base name (from `os.listdir`)
and whether `os.path.isfile` holds for it. -/
structure Entry where
  name : List Char
  isFile : Bool
deriving DecidableEq

/-- A Python `dict` from identifiers to integers: its key set and valuation.
The valuation is only meaningful on `keys`; indexing a key outside `keys`
is a `KeyError`, modelled where it can occur. -/
structure PyDict where
  keys : Finset Ident
  val : Ident → Nat

/-- The empty dict `{}` (returned at `app.py:65` when the directory is
missing). -/
def emptyPyDict : PyDict := ⟨∅, fun _ => 0⟩

/-- `{client_id: 0 for client_id in client_ids}` (`app.py:73`). -/
def dictInit (ids : Finset Ident) : PyDict := ⟨ids, fun _ => 0⟩

/-- `matched_image_count[number] += 1` (`app.py:83`).  In the scan the key
was just tested to be a member of `client_ids`, which is the dict's key set,
so the lookup cannot raise; the update keeps the key set unchanged. -/
def dictSetAdd (d : PyDict) (k : Ident) : PyDict :=
  ⟨d.keys, fun i => if i = k then d.val i + 1 else d.val i⟩

/-- One iteration of the loop at `app.py:76-85` over the accumulated state
`(matched_images, mismatched_images, matched_image_count)`: non-files are
skipped; a file whose extracted identifier is in `client_ids` is appended to
the matched list (and copied, a side effect not modelled) and its tally
incremented; any other file (including `None` extraction, since
`None in client_ids` is false) is appended to the mismatched list. -/
def scanStep (cids : Finset Ident) (st : List (List Char) × List (List Char) × PyDict)
    (e : Entry) : List (List Char) × List (List Char) × PyDict :=
  if e.isFile then
    match extract_number_from_filename e.name with
    | some n =>
      if n ∈ cids then (st.1 ++ [e.name], st.2.1, dictSetAdd st.2.2 n)
      else (st.1, st.2.1 ++ [e.name], st.2.2)
    | none => (st.1, st.2.1 ++ [e.name], st.2.2)
  else st

/-- `match_images_with_client_ids` (`app.py:61-87`): when the source
directory does not exist, report (side effect) and return
`([], [], {})`; otherwise fold the scan step over the directory's entries
starting from empty lists and the zero-initialized tally.  (The
`output_folder` creation at `app.py:68-69` is a file-system side effect with
no bearing on the returned data.) -/
def match_images_with_client_ids (cids : Finset Ident) (dir : Option (List Entry)) :
    List (List Char) × List (List Char) × PyDict :=
  match dir with
  | none => ([], [], emptyPyDict)
  | some entries => entries.foldl (scanStep cids) ([], [], dictInit cids)

/-- The input spreadsheet as `pd.read_excel` delivers it: unreadable
(any parse or I/O exception), or a table that does or does not carry a
`ClientID` column, whose `ClientID` cells are given as strings. -/
inductive ExcelInput where
  | unreadable : ExcelInput
  | table : Bool → List (List Char) → ExcelInput

/-- `read_client_ids_from_excel` (`app.py:42-51`): on success the `ClientID`
column normalized with `zfill 11` plus the set of its values; any exception
(read failure, or the `ValueError` raised when the column is absent) is
caught, reported, and `(pd.DataFrame(), set())` is returned. -/
def read_client_ids_from_excel (excel : ExcelInput) : List Ident × Finset Ident :=
  match excel with
  | .unreadable => ([], ∅)
  | .table false _ => ([], ∅)
  | .table true rows =>
    let norm := rows.map (zfill 11)
    (norm, norm.toFinset)

/-- The `KeyError`s that can escape `process_images`: from the unmatched-set
comprehension at `app.py:109` and from the merge loop at `app.py:117-118`. -/
inductive PyErr where
  | keyErrorUnmatched : PyErr
  | keyErrorMerge : PyErr
deriving DecidableEq

/-- `{cid for cid in client_ids if matched_image_count[cid] == 0}`
(`app.py:109`): raises `KeyError` exactly when some member of `client_ids`
is not a key of the tally; otherwise the subset of identifiers whose tally
is zero. -/
def computeUnmatched (cids : Finset Ident) (d : PyDict) : Except PyErr (Finset Ident) :=
  if cids ⊆ d.keys then .ok (cids.filter fun c => d.val c = 0)
  else .error .keyErrorUnmatched

/-- `for cid, count in fallback_matched_image_count.items():
matched_image_count[cid] += count` (`app.py:117-118`): raises `KeyError`
exactly when some key of the fallback tally is not a key of the primary
tally; otherwise per-key addition. -/
def mergeTally (tally ft : PyDict) : Except PyErr PyDict :=
  if ft.keys ⊆ tally.keys then
    .ok ⟨tally.keys, fun i => if i ∈ ft.keys then tally.val i + ft.val i else tally.val i⟩
  else .error .keyErrorMerge

/-- Lines `app.py:109-118`: compute the unmatched identifiers, and when some
exist and a fallback directory string was supplied (`fb = none` models
`None` or the empty string, both falsy), scan the fallback directory with
the target set restricted to them and merge the resulting tally in. -/
def fallback_pass (cids : Finset Ident) (tally : PyDict)
    (fb : Option (Option (List Entry))) : Except PyErr PyDict :=
  match computeUnmatched cids tally with
  | .error e => .error e
  | .ok unmatched =>
    match fb with
    | none => .ok tally
    | some fdir =>
      if unmatched = ∅ then .ok tally
      else mergeTally tally (match_images_with_client_ids unmatched fdir).2.2

/-- The pattern `'.xlsx'` of the replacement at `app.py:121`. -/
def xlsxExt : List Char := ['.', 'x', 'l', 's', 'x']

/-- The replacement string `'_updated.xlsx'` of `app.py:121`. -/
def updatedXlsx : List Char :=
  ['_', 'u', 'p', 'd', 'a', 't', 'e', 'd', '.', 'x', 'l', 's', 'x']

/-- Python `str.replace(pat, rep)`: scan left to right, replacing each
non-overlapping occurrence of `pat`.  The `Nat` argument counts characters
of a just-matched pattern still to be consumed without re-examination. -/
def replaceAllGo (pat rep : List Char) : List Char → Nat → List Char
  | [], _ => []
  | _ :: rest, k + 1 => replaceAllGo pat rep rest k
  | c :: rest, 0 =>
    if pat.isPrefixOf (c :: rest) then rep ++ replaceAllGo pat rep rest (pat.length - 1)
    else c :: replaceAllGo pat rep rest 0

/-- `excel_path.replace('.xlsx', '_updated.xlsx')` (`app.py:121`). -/
def derivedPath (p : List Char) : List Char :=
  replaceAllGo xlsxExt updatedXlsx p 0

/-- Modelled from the spec's words for the refinement comparison of claim
C3 only: the input path with `_updated` inserted immediately before the
file extension (the part after the last dot; a path with no dot just gets
the suffix appended). -/
def specPathInsertBeforeExt (p : List Char) : List Char :=
  let ext := p.reverse.takeWhile fun c => c ≠ '.'
  if ext.length = p.length then p ++ ['_', 'u', 'p', 'd', 'a', 't', 'e', 'd']
  else
    p.take (p.length - ext.length - 1) ++ ['_', 'u', 'p', 'd', 'a', 't', 'e', 'd'] ++
      ['.'] ++ ext.reverse

/-- What a run of `process_images` produces, data-wise: an early return with
no output file written (`app.py:103-105`), or completion with the final
merged tally and the path the updated spreadsheet is written to
(`app.py:121-128`; the `Matched Images Count` / `Status` columns are
functions of the tally). -/
inductive ProcOutcome where
  | aborted : ProcOutcome
  | finished : PyDict → List Char → ProcOutcome

/-- `process_images` (`app.py:101-128`): load the spreadsheet; abort early
when the frame is empty or no identifiers were found; scan the primary
directory; run the unmatched computation and conditional fallback pass
(either can raise `KeyError`); then write the updated spreadsheet at the
derived path. -/
def process_images (path : List Char) (excel : ExcelInput)
    (primary : Option (List Entry)) (fb : Option (Option (List Entry))) :
    Except PyErr ProcOutcome :=
  let r := read_client_ids_from_excel excel
  if r.1 = [] ∨ r.2 = ∅ then .ok .aborted
  else
    match fallback_pass r.2 (match_images_with_client_ids r.2 primary).2.2 fb with
    | .error e => .error e
    | .ok tally => .ok (.finished tally (derivedPath path))

/-- Holds of a run result unless it is the merge loop's `KeyError`
(`app.py:117-118` indexing a key absent from the primary tally). -/
def noMergeKeyError {α : Type} : Except PyErr α → Bool
  | .error .keyErrorMerge => false
  | _ => true

/-- A sample identifier for concrete witnesses: `'1'.zfill(11)`. -/
def oneId : Ident := zfill 11 ['1']

/-- A sample one-element target set for concrete witnesses. -/
def oneIdSet : Finset Ident := {oneId}

/-! ## Lemmas about `zfill` -/

lemma zfill_length (w : Nat) (s : List Char) : w ≤ (zfill w s).length := by
  unfold zfill
  split
  · assumption
  · next h =>
    split
    · simp
    · next c rest =>
      simp only [List.length_cons, not_le] at h
      split
      · simp only [List.length_cons, List.length_append, List.length_replicate]
        omega
      · simp only [List.length_cons, List.length_append, List.length_replicate]
        omega

lemma zfill_of_le (w : Nat) (s : List Char) (h : w ≤ s.length) : zfill w s = s := by
  simp [zfill, h]

lemma zfill_eq_pad (w : Nat) (c : Char) (rest : List Char) (h1 : ¬(c = '+' ∨ c = '-')) :
    zfill w (c :: rest) = List.replicate (w - (rest.length + 1)) '0' ++ (c :: rest) := by
  by_cases h : w ≤ (c :: rest).length
  · rw [zfill_of_le _ _ h]
    simp only [List.length_cons] at h
    have h0 : w - (rest.length + 1) = 0 := by omega
    rw [h0]
    simp
  · unfold zfill
    rw [if_neg h]
    exact if_neg h1

/-! ## Theorems for claims C5 and C4 -/

/-- Claim C5: identifier normalization (`zfill` to width 11) is idempotent —
for every string value, normalizing an already-normalized identifier yields
the same value. -/
theorem c5_zfill_idempotent : ∀ s : List Char, zfill 11 (zfill 11 s) = zfill 11 s :=
  fun s => zfill_of_le 11 _ (zfill_length 11 s)

/-- Claim C4: the extractor splits on the first underscore, matches the
leading decimal-digit run of the portion before it (`leadRun`); when the run
is empty (the portion does not start with a digit) it returns `none`, a
distinguished absence; otherwise it returns the run left-padded with zeros
to width 11, and runs of length at least 11 come back unchanged (padding
never truncates); and the result depends only on the leading digit run of
the pre-underscore portion. -/
theorem c4_extractor_contract :
    (∀ name : List Char, leadRun name = [] → extract_number_from_filename name = none) ∧
    (∀ name : List Char, leadRun name ≠ [] →
      extract_number_from_filename name
        = some (List.replicate (11 - (leadRun name).length) '0' ++ leadRun name)) ∧
    (∀ name : List Char, 11 ≤ (leadRun name).length →
      extract_number_from_filename name = some (leadRun name)) ∧
    (∀ n₁ n₂ : List Char, leadRun n₁ = leadRun n₂ →
      extract_number_from_filename n₁ = extract_number_from_filename n₂) := by
  refine ⟨?_, ?_, ?_, ?_⟩
  · intro name h
    simp [extract_number_from_filename, h]
  · intro name h
    simp only [extract_number_from_filename, h, if_false]
    obtain ⟨c, rest, hd⟩ := List.exists_cons_of_ne_nil h
    have hcmem : c ∈ leadRun name := by rw [hd]; exact List.mem_cons_self c rest
    have hcdig : c.isDigit = true := List.mem_takeWhile_imp hcmem
    have h1 : ¬(c = '+' ∨ c = '-') := by
      rintro (rfl | rfl) <;> exact absurd hcdig (by decide)
    rw [hd, zfill_eq_pad _ _ _ h1]
    simp
  · intro name h
    have hne : leadRun name ≠ [] := by
      intro h0
      rw [h0] at h
      simp at h
    simp [extract_number_from_filename, hne, zfill_of_le _ _ h]
  · intro n₁ n₂ h
    unfold extract_number_from_filename
    rw [h]

/-- Witness for C4 at the concrete file name `123_a`: the pre-underscore
leading digit run `123` comes back zero-padded to 11 characters. -/
theorem c4_witness :
    extract_number_from_filename ['1', '2', '3', '_', 'a']
      = some (List.replicate 8 '0' ++ ['1', '2', '3']) :=
  c4_extractor_contract.2.1 ['1', '2', '3', '_', 'a'] (by decide)

/-! ## Invariants of the directory scan -/

lemma scanStep_keys (cids : Finset Ident) (st : List (List Char) × List (List Char) × PyDict)
    (e : Entry) : ((scanStep cids st e).2.2).keys = st.2.2.keys := by
  unfold scanStep
  split
  · split
    · split
      · simp [dictSetAdd]
      · rfl
    · rfl
  · rfl

lemma foldl_scan_keys (cids : Finset Ident) :
    ∀ (entries : List Entry) (st : List (List Char) × List (List Char) × PyDict),
      ((entries.foldl (scanStep cids) st).2.2).keys = st.2.2.keys := by
  intro entries
  induction entries with
  | nil => intro st; rfl
  | cons e es ih =>
    intro st
    rw [List.foldl_cons, ih, scanStep_keys]

lemma scanStep_partition (cids : Finset Ident) (st : List (List Char) × List (List Char) × PyDict)
    (e : Entry) :
    ((scanStep cids st e).1).length + ((scanStep cids st e).2.1).length
      = st.1.length + st.2.1.length + (if e.isFile then 1 else 0) := by
  by_cases hf : e.isFile = true
  · simp only [scanStep, hf, if_true]
    cases hx : extract_number_from_filename e.name with
    | none =>
      simp only [List.length_append, List.length_singleton]
      omega
    | some n =>
      by_cases hn : n ∈ cids
      · simp only [hn, if_true, List.length_append, List.length_singleton]
        omega
      · simp only [hn, if_false, List.length_append, List.length_singleton]
        omega
  · simp [scanStep, hf]

lemma foldl_scan_partition (cids : Finset Ident) :
    ∀ (entries : List Entry) (st : List (List Char) × List (List Char) × PyDict),
      ((entries.foldl (scanStep cids) st).1).length + ((entries.foldl (scanStep cids) st).2.1).length
        = st.1.length + st.2.1.length + (entries.filter fun e => e.isFile).length := by
  intro entries
  induction entries with
  | nil => intro st; simp
  | cons e es ih =>
    intro st
    rw [List.foldl_cons, ih, scanStep_partition, List.filter_cons]
    cases hf : e.isFile
    · simp
    · simp
      omega

lemma length_filter_isFile_add (es : List Entry) :
    (es.filter fun e => e.isFile).length + (es.filter fun e => !e.isFile).length = es.length := by
  induction es with
  | nil => rfl
  | cons e es ih =>
    cases hf : e.isFile <;> simp [List.filter_cons, hf] <;> omega

lemma sum_ite_add_one (s : Finset Ident) (f : Ident → Nat) (n : Ident) (h : n ∈ s) :
    (s.sum fun i => if i = n then f i + 1 else f i) = s.sum f + 1 := by
  have h1 : (fun i => if i = n then f i + 1 else f i)
      = fun i => f i + (if i = n then 1 else 0) := by
    funext i
    by_cases hi : i = n <;> simp [hi]
  rw [h1, Finset.sum_add_distrib]
  congr 1
  rw [Finset.sum_ite_eq' s n fun _ => 1]
  simp [h]

lemma scanStep_sum (cids : Finset Ident) (st : List (List Char) × List (List Char) × PyDict)
    (e : Entry) (h : st.2.2.keys = cids) :
    (((scanStep cids st e).2.2).keys).sum ((scanStep cids st e).2.2).val + st.1.length
      = (st.2.2.keys).sum st.2.2.val + ((scanStep cids st e).1).length := by
  by_cases hf : e.isFile = true
  · simp only [scanStep, hf, if_true]
    cases hx : extract_number_from_filename e.name with
    | none => simp
    | some n =>
      by_cases hn : n ∈ cids
      · simp only [hn, if_true, dictSetAdd, List.length_append, List.length_singleton]
        rw [sum_ite_add_one _ _ _ (h ▸ hn)]
        omega
      · simp [hn]
  · simp [scanStep, hf]

lemma foldl_scan_sum (cids : Finset Ident) :
    ∀ (entries : List Entry) (st : List (List Char) × List (List Char) × PyDict),
      st.2.2.keys = cids →
      (((entries.foldl (scanStep cids) st).2.2).keys).sum
          ((entries.foldl (scanStep cids) st).2.2).val + st.1.length
        = (st.2.2.keys).sum st.2.2.val + ((entries.foldl (scanStep cids) st).1).length := by
  intro entries
  induction entries with
  | nil => intro st _; rfl
  | cons e es ih =>
    intro st h
    rw [List.foldl_cons]
    have hk : (scanStep cids st e).2.2.keys = cids := by rw [scanStep_keys, h]
    have h1 := ih (scanStep cids st e) hk
    have h2 := scanStep_sum cids st e h
    omega

lemma scan_keys_some (cids : Finset Ident) (entries : List Entry) :
    ((match_images_with_client_ids cids (some entries)).2.2).keys = cids :=
  foldl_scan_keys cids entries ([], [], dictInit cids)

lemma scan_keys_subset (cids : Finset Ident) (dir : Option (List Entry)) :
    ((match_images_with_client_ids cids dir).2.2).keys ⊆ cids := by
  cases dir with
  | none => exact Finset.empty_subset cids
  | some entries => exact (scan_keys_some cids entries).le

/-! ## Theorems for claims C2, C6, C7 -/

/-- Claim C2 (amended): when the source directory exists, the Directory
Matcher's tally maps exactly the identifiers of the supplied target set,
each count starting from zero before any entry is scanned (an empty scan
leaves every count zero); when the source directory is missing the matcher
instead returns empty matched/mismatched lists and an empty tally; in every
case no key outside the target set appears in the tally. -/
theorem c2_amended :
    (∀ (cids : Finset Ident) (entries : List Entry),
      ((match_images_with_client_ids cids (some entries)).2.2).keys = cids) ∧
    (∀ cids : Finset Ident, match_images_with_client_ids cids none = ([], [], emptyPyDict)) ∧
    (∀ (cids : Finset Ident) (dir : Option (List Entry)),
      ((match_images_with_client_ids cids dir).2.2).keys ⊆ cids) ∧
    (∀ (cids : Finset Ident) (i : Ident),
      ((match_images_with_client_ids cids (some [])).2.2).val i = 0) := by
  refine ⟨scan_keys_some, fun _ => rfl, scan_keys_subset, fun _ _ => rfl⟩

/-- Counterexample to claim C2 as stated: when the source directory is
missing, the returned tally does not map every identifier of the supplied
target set — here the target identifier is not a key of the returned
(empty) tally at all. -/
theorem c2_counterexample :
    oneId ∈ oneIdSet ∧
      oneId ∉ ((match_images_with_client_ids oneIdSet none).2.2).keys := by
  refine ⟨by decide, by decide⟩

/-- Claim C6: over an existing source directory every immediate entry is
classified into exactly one of matched, mismatched, or skipped non-file, so
the three counts add up to the number of entries enumerated. -/
theorem c6_scan_partition :
    ∀ (cids : Finset Ident) (entries : List Entry),
      ((match_images_with_client_ids cids (some entries)).1).length
        + ((match_images_with_client_ids cids (some entries)).2.1).length
        + (entries.filter fun e => !e.isFile).length = entries.length := by
  intro cids entries
  have h := foldl_scan_partition cids entries ([], [], dictInit cids)
  have h2 := length_filter_isFile_add entries
  simp only [List.length_nil, Nat.zero_add] at h
  show ((entries.foldl (scanStep cids) ([], [], dictInit cids)).1).length
      + ((entries.foldl (scanStep cids) ([], [], dictInit cids)).2.1).length
      + (entries.filter fun e => !e.isFile).length = entries.length
  omega

/-- Claim C7: after any single directory scan the sum of the returned tally
over all its identifiers equals the number of matched file names — each
matched file increments exactly one identifier's count by one (and a scan
of a missing directory matches nothing and tallies nothing). -/
theorem c7_tally_sum :
    ∀ (cids : Finset Ident) (dir : Option (List Entry)),
      (((match_images_with_client_ids cids dir).2.2).keys).sum
          ((match_images_with_client_ids cids dir).2.2).val
        = ((match_images_with_client_ids cids dir).1).length := by
  intro cids dir
  cases dir with
  | none => simp [match_images_with_client_ids, emptyPyDict]
  | some entries =>
    have h := foldl_scan_sum cids entries ([], [], dictInit cids) rfl
    dsimp only [dictInit] at h
    simp only [List.length_nil, Nat.add_zero, Finset.sum_const_zero, Nat.zero_add] at h
    exact h

/-! ## Lemmas about the unmatched computation and the merge -/

lemma computeUnmatched_ok {cids : Finset Ident} {t : PyDict} {u : Finset Ident}
    (h : computeUnmatched cids t = .ok u) : u = cids.filter fun c => t.val c = 0 := by
  unfold computeUnmatched at h
  split at h
  · injection h with h'
    exact h'.symm
  · exact Except.noConfusion h

lemma computeUnmatched_sub {cids : Finset Ident} {t : PyDict} {u : Finset Ident}
    (h : computeUnmatched cids t = .ok u) : cids ⊆ t.keys := by
  unfold computeUnmatched at h
  split at h
  · assumption
  · exact Except.noConfusion h

lemma fallback_pass_no_merge_error (cids : Finset Ident) (tally : PyDict)
    (fb : Option (Option (List Entry))) :
    noMergeKeyError (fallback_pass cids tally fb) = true := by
  unfold fallback_pass
  split
  · next e heq =>
    unfold computeUnmatched at heq
    split at heq
    · exact Except.noConfusion heq
    · injection heq with h'
      rw [← h']
      rfl
  · next u heq =>
    split
    · rfl
    · split
      · rfl
      · next fdir hne =>
        have hsub : ((match_images_with_client_ids u fdir).2.2).keys ⊆ tally.keys := by
          intro a ha
          exact computeUnmatched_sub heq
            (Finset.filter_subset _ _ (computeUnmatched_ok heq ▸ scan_keys_subset u fdir ha))
        unfold mergeTally
        rw [if_pos hsub]
        rfl

/-! ## Theorems for claims C8 and C10 -/

/-- Claim C8: the fallback pass never increases the tally of an identifier
whose primary-pass count is nonzero — the fallback target set is exactly the
set of identifiers whose primary count is zero, and the merge adds fallback
counts only for keys of the fallback tally, which are drawn from that set. -/
theorem c8_fallback_no_increase :
    (∀ (cids : Finset Ident) (entries : List Entry) (fb : Option (Option (List Entry)))
        (merged : PyDict) (i : Ident),
      fallback_pass cids ((match_images_with_client_ids cids (some entries)).2.2) fb
          = .ok merged →
      ((match_images_with_client_ids cids (some entries)).2.2).val i ≠ 0 →
      merged.val i = ((match_images_with_client_ids cids (some entries)).2.2).val i) ∧
    (∀ (cids : Finset Ident) (t : PyDict) (u : Finset Ident),
      computeUnmatched cids t = .ok u → u = cids.filter fun c => t.val c = 0) := by
  constructor
  · intro cids entries fb merged i hok hnz
    unfold fallback_pass at hok
    split at hok
    · exact Except.noConfusion hok
    · next u heq =>
      split at hok
      · injection hok with h'
        rw [← h']
      · split at hok
        · injection hok with h'
          rw [← h']
        · next fdir hne =>
          unfold mergeTally at hok
          split at hok
          · injection hok with h'
            rw [← h']
            have hni : i ∉ ((match_images_with_client_ids u fdir).2.2).keys := by
              intro hi
              have hiu : i ∈ u := scan_keys_subset u fdir hi
              rw [computeUnmatched_ok heq] at hiu
              exact hnz (Finset.mem_filter.mp hiu).2
            exact if_neg hni
          · exact Except.noConfusion hok
  · intro cids t u h
    exact computeUnmatched_ok h

/-- A second sample identifier, `'2'.zfill(11)`, for the C8 witness. -/
def twoId : Ident := zfill 11 ['2']

/-- The C8 witness's target set `{1, 2}` (padded). -/
def c8SampleIds : Finset Ident := {oneId, twoId}

/-- The C8 witness's primary tally: scan of a directory holding file `1`. -/
def c8Primary : PyDict :=
  (match_images_with_client_ids c8SampleIds (some [⟨['1'], true⟩])).2.2

/-- The C8 witness's fallback tally: scan of a directory holding file `2`,
restricted to the identifiers unmatched by the primary pass. -/
def c8Fallback : PyDict :=
  (match_images_with_client_ids
    (Finset.filter (fun c => c8Primary.val c = 0) c8SampleIds)
    (some [⟨['2'], true⟩])).2.2

/-- The C8 witness's merged tally, as the merge loop builds it. -/
def c8Merged : PyDict :=
  ⟨c8Primary.keys,
    fun i => if i ∈ c8Fallback.keys then c8Primary.val i + c8Fallback.val i
      else c8Primary.val i⟩

/-- Witness for C8 on a concrete run: target set `{1, 2}` padded, primary
directory holding a file `1`, fallback directory holding a file `2`; the
merge leaves the already-matched identifier's count unchanged. -/
theorem c8_witness : c8Merged.val oneId = c8Primary.val oneId :=
  c8_fallback_no_increase.1 c8SampleIds [⟨['1'], true⟩]
    (some (some [⟨['2'], true⟩])) c8Merged oneId rfl (by decide)

/-- Claim C10: the merge loop never indexes a missing key — no run of
`process_images` ends in the merge's `KeyError`, because whenever the
unmatched-set computation succeeds, the keys of any fallback tally built
from its result form a subset of the primary tally's keys. -/
theorem c10_merge_safe :
    (∀ (path : List Char) (excel : ExcelInput) (primary : Option (List Entry))
        (fb : Option (Option (List Entry))),
      noMergeKeyError (process_images path excel primary fb) = true) ∧
    (∀ (cids : Finset Ident) (t : PyDict) (u : Finset Ident) (fdir : Option (List Entry)),
      computeUnmatched cids t = .ok u →
      ((match_images_with_client_ids u fdir).2.2).keys ⊆ t.keys) := by
  constructor
  · intro path excel primary fb
    unfold process_images
    dsimp only
    split
    · rfl
    · have h := fallback_pass_no_merge_error (read_client_ids_from_excel excel).2
        ((match_images_with_client_ids (read_client_ids_from_excel excel).2 primary).2.2) fb
      split
      · next e heq =>
        rw [heq] at h
        cases e with
        | keyErrorUnmatched => rfl
        | keyErrorMerge => exact Bool.noConfusion h
      · rfl
  · intro cids t u fdir h a ha
    exact computeUnmatched_sub h
      (Finset.filter_subset _ _ (computeUnmatched_ok h ▸ scan_keys_subset u fdir ha))

/-- Witness for C10 on concrete data: the unmatched set computed from a
zero-initialized tally over `{1}` scans to a fallback tally whose key set
sits inside the primary tally's key set. -/
theorem c10_witness :
    ((match_images_with_client_ids
        (Finset.filter (fun c => (dictInit oneIdSet).val c = 0) oneIdSet)
        none).2.2).keys ⊆ (dictInit oneIdSet).keys :=
  c10_merge_safe.2 oneIdSet (dictInit oneIdSet)
    (Finset.filter (fun c => (dictInit oneIdSet).val c = 0) oneIdSet) none rfl

/-! ## Theorems for claims C1 and C9 -/

/-- Claim C1, evaluated at the failing input (a readable table with one
`ClientID` row and a missing primary images directory): `process_images`
raises an uncaught `KeyError` at the unmatched-set comprehension
(`app.py:109`), because the matcher returned an empty tally — so the
failure does escape `process()` as an unhandled fault, contradicting the
claim. -/
theorem c1_missing_primary_dir_keyerror :
    process_images (['a'] ++ xlsxExt) (.table true [['1']]) none none
      = .error .keyErrorUnmatched := rfl

/-- Claim C9: an unreadable or malformed input table, and a table missing
the `ClientID` column, are reported and give the empty frame plus the empty
identifier set as a safe default; the run then aborts early with no output
table file written. -/
theorem c9_loader_safe_default :
    (read_client_ids_from_excel .unreadable = ([], ∅)) ∧
    (∀ rows : List (List Char), read_client_ids_from_excel (.table false rows) = ([], ∅)) ∧
    (∀ (path : List Char) (primary : Option (List Entry)) (fb : Option (Option (List Entry))),
      process_images path .unreadable primary fb = .ok .aborted) ∧
    (∀ (path : List Char) (rows : List (List Char)) (primary : Option (List Entry))
        (fb : Option (Option (List Entry))),
      process_images path (.table false rows) primary fb = .ok .aborted) :=
  ⟨rfl, fun _ => rfl, fun _ _ _ => rfl, fun _ _ _ _ => rfl⟩

/-! ## Theorems for claim C3 -/

lemma replaceAllGo_cons_zero (pat rep : List Char) (c : Char) (rest : List Char) :
    replaceAllGo pat rep (c :: rest) 0 =
      if pat.isPrefixOf (c :: rest) then rep ++ replaceAllGo pat rep rest (pat.length - 1)
      else c :: replaceAllGo pat rep rest 0 := rfl

/-- Claim C3 (amended): for an input path consisting of a dot-free stem
followed by the `.xlsx` extension, the derived output path is the input
with `_updated` inserted immediately before the extension; in general the
code rewrites every occurrence of `.xlsx` in the path to `_updated.xlsx`
(so other extensions are left untouched and a path containing `.xlsx`
twice receives two insertions). -/
theorem c3_amended :
    ∀ s : List Char, '.' ∉ s → derivedPath (s ++ xlsxExt) = s ++ updatedXlsx := by
  intro s
  induction s with
  | nil => intro _; decide
  | cons c cs ih =>
    intro h
    have hc : ('.' == c) = false := by
      have : c ≠ '.' := fun hcc => h (hcc ▸ List.mem_cons_self c cs)
      exact beq_eq_false_iff_ne.mpr (Ne.symm this)
    have h2 : '.' ∉ cs := fun hm => h (List.mem_cons_of_mem c hm)
    have hpre : xlsxExt.isPrefixOf (c :: (cs ++ xlsxExt)) = false := by
      simp only [xlsxExt, List.isPrefixOf, hc, Bool.false_and]
    show replaceAllGo xlsxExt updatedXlsx (c :: (cs ++ xlsxExt)) 0 = c :: (cs ++ updatedXlsx)
    rw [replaceAllGo_cons_zero, hpre]
    simp only [Bool.false_eq_true, if_false]
    exact congrArg (c :: ·) (ih h2)

/-- Witness for C3 at the concrete dot-free stem `r`: `r.xlsx` derives to
`r_updated.xlsx`. -/
theorem c3_witness : derivedPath (['r'] ++ xlsxExt) = ['r'] ++ updatedXlsx :=
  c3_amended ['r'] (by decide)

/-- Counterexample to claim C3 as stated: on the path `a.xlsx.xlsx` the
code replaces both occurrences of `.xlsx`, producing
`a_updated.xlsx_updated.xlsx`, which differs from the path obtained by
inserting `_updated` immediately before the file extension
(`a.xlsx_updated.xlsx`). -/
theorem c3_counterexample :
    derivedPath (['a'] ++ xlsxExt ++ xlsxExt) = ['a'] ++ updatedXlsx ++ updatedXlsx ∧
    specPathInsertBeforeExt (['a'] ++ xlsxExt ++ xlsxExt) = ['a'] ++ xlsxExt ++ updatedXlsx ∧
    derivedPath (['a'] ++ xlsxExt ++ xlsxExt)
      ≠ specPathInsertBeforeExt (['a'] ++ xlsxExt ++ xlsxExt) :=
  ⟨by decide, by decide, by decide⟩

end App
